import Mathlib

/-
Verification of the JuicyFlock boids simulation core.

The CPU side (parameter clamping, reallocation triggering, grid sizing,
buffer lifecycle) is embedded from Source/MainComponent.cpp.  Floating
point values are idealised as rationals (for the CPU-side arithmetic,
which is branch-and-clamp only) and as reals (for the kernel math that
involves square roots).  The three compute kernels are shipped as
runtime-loaded files that are not part of the repository snapshot, so
they are modelled from the specification (sections 4.1, 4.2 of the spec
and docs/TECHNICAL.md); those definitions carry a doc comment starting
with: Modelled from the spec.
-/

namespace JuicyFlock

/-! ## CPU-side helpers (JUCE jmax / jlimit, MainComponent.cpp) -/

/-- juce jmax over floats: (a < b) ? b : a. -/
def jmaxQ (a b : ℚ) : ℚ := if a < b then b else a

/-- juce jlimit over floats:
    value < lower ? lower : (upper < value ? upper : value). -/
def jlimitQ (lo hi v : ℚ) : ℚ := if v < lo then lo else if hi < v then hi else v

/-- juce jlimit over ints. -/
def jlimitZ (lo hi v : ℤ) : ℤ := if v < lo then lo else if hi < v then hi else v

/-- BoidsControlPanel Params (MainComponent.h, UI parameter record). -/
structure ParamsUI where
  particleCount : ℤ
  neighborRadius : ℚ
  separationRadius : ℚ
  weightSeparation : ℚ
  weightAlignment : ℚ
  weightCohesion : ℚ
  minSpeed : ℚ
  maxSpeed : ℚ
  maxAccel : ℚ
  simSpeed : ℚ
  centerAttraction : ℚ
  boundaryMargin : ℚ
  boundaryStrength : ℚ
  wrapBounds : Bool
  pointSize : ℚ
  alphaMul : ℚ
  particleShape : ℤ
  colorMode : ℤ
  hueOffset : ℚ
  hueRange : ℚ
  saturation : ℚ
  value : ℚ
  densityCurve : ℚ

/-- Default Params values of BoidsControlPanel (MainComponent.h). -/
def defaultParams : ParamsUI where
  particleCount := 60000
  neighborRadius := 134/100
  separationRadius := 207/100
  weightSeparation := 185/100
  weightAlignment := 137/100
  weightCohesion := 1/2
  minSpeed := 1
  maxSpeed := 10
  maxAccel := 8
  simSpeed := 1
  centerAttraction := 3/10
  boundaryMargin := 5
  boundaryStrength := 10
  wrapBounds := false
  pointSize := 1
  alphaMul := 65/100
  particleShape := 1
  colorMode := 1
  hueOffset := 0
  hueRange := 7/10
  saturation := 4/10
  value := 1
  densityCurve := 1

/-- Simulation parameters stored in MainComponent (member fields). -/
structure StoredParams where
  currentParticleCount : ℤ
  neighborRadius : ℚ
  separationRadius : ℚ
  weightSeparation : ℚ
  weightAlignment : ℚ
  weightCohesion : ℚ
  minSpeed : ℚ
  maxSpeed : ℚ
  maxAccel : ℚ
  simSpeed : ℚ
  centerAttraction : ℚ
  boundaryMargin : ℚ
  boundaryStrength : ℚ
  wrapBounds : Bool
  pointSize : ℚ
  alphaMul : ℚ
  particleShape : ℤ
  colorMode : ℤ
  hueOffset : ℚ
  hueRange : ℚ
  saturation : ℚ
  value : ℚ
  densityCurve : ℚ

/-- Constructor clamping block of MainComponent (MainComponent.cpp lines
    153-183): clamps the default Params once and stores them. -/
def initParams (p : ParamsUI) : StoredParams :=
  let newCount := jlimitZ 1 100000 p.particleCount
  let nbr := jlimitQ (5/100) 50 p.neighborRadius
  { currentParticleCount := newCount
    neighborRadius := nbr
    separationRadius := jlimitQ (1/100) nbr p.separationRadius
    weightSeparation := jlimitQ 0 50 p.weightSeparation
    weightAlignment := jlimitQ 0 50 p.weightAlignment
    weightCohesion := jlimitQ 0 50 p.weightCohesion
    minSpeed := jlimitQ 0 1000 p.minSpeed
    maxSpeed := jlimitQ (jmaxQ (jlimitQ 0 1000 p.minSpeed + 1/1000) (1/100)) 1000 p.maxSpeed
    maxAccel := jlimitQ 0 10000 p.maxAccel
    simSpeed := jlimitQ (1/10) 2 p.simSpeed
    centerAttraction := jlimitQ 0 1000 p.centerAttraction
    boundaryMargin := jlimitQ (1/100) 1000 p.boundaryMargin
    boundaryStrength := jlimitQ 0 10000 p.boundaryStrength
    wrapBounds := p.wrapBounds
    pointSize := jlimitQ 1 64 p.pointSize
    alphaMul := jlimitQ 0 1 p.alphaMul
    particleShape := jlimitZ 0 3 p.particleShape
    colorMode := jlimitZ 0 3 p.colorMode
    hueOffset := jlimitQ 0 1 p.hueOffset
    hueRange := jlimitQ 0 1 p.hueRange
    saturation := jlimitQ 0 1 p.saturation
    value := jlimitQ 0 1 p.value
    densityCurve := jlimitQ (1/10) 8 p.densityCurve }

/-- Parameter-update handler (the setOnParamsChanged lambda body run on
    the GL thread, MainComponent.cpp lines 215-248).  Returns the new
    stored parameters together with a flag telling whether
    rebuildBuffersOnGLThread was invoked.  Note that the change test for
    the neighbor radius compares the raw incoming value against the
    stored (clamped) one with a 1.0e-4 tolerance, before the stored
    value is overwritten; currentParticleCount is only updated inside
    rebuildBuffersOnGLThread (line 617), hence the conditional count. -/
def applyParamsUpdate (s : StoredParams) (p : ParamsUI) : StoredParams × Bool :=
  let newCount := jlimitZ 1 100000 p.particleCount
  let nrChanged : Bool := decide (|p.neighborRadius - s.neighborRadius| > 1/10000)
  let nbr := jlimitQ (5/100) 50 p.neighborRadius
  let minS := jlimitQ 0 1000 p.minSpeed
  let rebuild : Bool := decide (newCount ≠ s.currentParticleCount) || nrChanged
  ({ currentParticleCount := if rebuild then jlimitZ 1 100000 newCount
                             else s.currentParticleCount
     neighborRadius := nbr
     separationRadius := jlimitQ (1/100) nbr p.separationRadius
     weightSeparation := jlimitQ 0 50 p.weightSeparation
     weightAlignment := jlimitQ 0 50 p.weightAlignment
     weightCohesion := jlimitQ 0 50 p.weightCohesion
     minSpeed := minS
     maxSpeed := jlimitQ (jmaxQ (minS + 1/1000) (1/100)) 1000 p.maxSpeed
     maxAccel := jlimitQ 0 10000 p.maxAccel
     simSpeed := jlimitQ (1/10) 2 p.simSpeed
     centerAttraction := jlimitQ 0 1000 p.centerAttraction
     boundaryMargin := jlimitQ (1/100) 1000 p.boundaryMargin
     boundaryStrength := jlimitQ 0 10000 p.boundaryStrength
     wrapBounds := p.wrapBounds
     pointSize := jlimitQ 1 64 p.pointSize
     alphaMul := jlimitQ 0 1 p.alphaMul
     particleShape := jlimitZ 0 3 p.particleShape
     colorMode := jlimitZ 0 3 p.colorMode
     hueOffset := jlimitQ 0 1 p.hueOffset
     hueRange := jlimitQ 0 1 p.hueRange
     saturation := jlimitQ 0 1 p.saturation
     value := jlimitQ 0 1 p.value
     densityCurve := jlimitQ (1/10) 8 p.densityCurve }, rebuild)

/-! ## Basic jlimit facts -/

theorem jlimitQ_mem (lo hi v : ℚ) (h : lo ≤ hi) :
    lo ≤ jlimitQ lo hi v ∧ jlimitQ lo hi v ≤ hi := by
  unfold jlimitQ
  split_ifs with h1 h2 <;> constructor <;> linarith

theorem jlimitZ_eq_min_max (lo hi v : ℤ) (h : lo ≤ hi) :
    jlimitZ lo hi v = min (max v lo) hi := by
  unfold jlimitZ
  split_ifs with h1 h2 <;> omega

theorem jmaxQ_eq_max (a b : ℚ) : jmaxQ a b = max a b := by
  unfold jmaxQ
  rcases lt_or_ge a b with h | h
  · rw [if_pos h, max_eq_right h.le]
  · rw [if_neg (not_lt.mpr h), max_eq_left h]

/-! ## Grid sizing (MainComponent.cpp, rebuildBuffersOnGLThread lines
619-650).  The world box and the cell-count ceiling are the constant
member fields of MainComponent (header lines 1555-1560). -/

/-- World box lower corner (MainComponent.h). -/
def worldMinQ : ℚ × ℚ × ℚ := (-10, -10, -10)

/-- World box upper corner (MainComponent.h). -/
def worldMaxQ : ℚ × ℚ × ℚ := (10, 10, 10)

/-- Cell-count ceiling maxCellCount = 1 shl 20 (MainComponent.h line 1560). -/
def maxCellCountC : ℤ := 2 ^ 20

/-- juce jmax over ints. -/
def jmaxZ (a b : ℤ) : ℤ := if a < b then b else a

/-- Integer grid dimensions per axis. -/
structure GridSizing where
  dimX : ℤ
  dimY : ℤ
  dimZ : ℤ

/-- cellCount = gridDims.x * gridDims.y * gridDims.z. -/
def cellCountOf (g : GridSizing) : ℤ := g.dimX * g.dimY * g.dimZ

/-- computeGridFromCellSize lambda (lines 627-637): per axis,
    jmax(1, ceil(worldSize / cellSize)). -/
def computeGridFromCellSize (cs : ℚ) : GridSizing where
  dimX := jmaxZ 1 ⌈((worldMaxQ.1 - worldMinQ.1)) / cs⌉
  dimY := jmaxZ 1 ⌈((worldMaxQ.2.1 - worldMinQ.2.1)) / cs⌉
  dimZ := jmaxZ 1 ⌈((worldMaxQ.2.2 - worldMinQ.2.2)) / cs⌉

/-- Bounded scale-up loop (lines 644-649): at most 4 iterations, each
    multiplying cellSize by cbrt(cellCount / maxCellCount) * 1.001 while
    the cell count is over budget.  The float cbrt is abstracted as an
    arbitrary function cbrtF. -/
def gridRetryLoop (cbrtF : ℚ → ℚ) : ℕ → ℚ → ℚ
  | 0, cs => cs
  | it + 1, cs =>
    if cellCountOf (computeGridFromCellSize cs) > maxCellCountC then
      gridRetryLoop cbrtF it
        (cs * (cbrtF ((cellCountOf (computeGridFromCellSize cs) : ℚ) / (maxCellCountC : ℚ))
               * (1001 / 1000)))
    else cs

/-- Final cell size of a reallocation (lines 624-650): start from
    jmax(0.5, neighborRadius), then scale up only when over budget. -/
def rebuildCellSize (cbrtF : ℚ → ℚ) (r : ℚ) : ℚ :=
  if maxCellCountC > 0 ∧ cellCountOf (computeGridFromCellSize (jmaxQ (1/2) r)) > maxCellCountC
  then gridRetryLoop cbrtF 4 (jmaxQ (1/2) r)
  else jmaxQ (1/2) r

/-- Grid dimensions resulting from a reallocation. -/
def rebuildGridDims (cbrtF : ℚ → ℚ) (r : ℚ) : GridSizing :=
  computeGridFromCellSize (rebuildCellSize cbrtF r)

theorem dim_bounds (cs : ℚ) (h : 1/2 ≤ cs) :
    (1 ≤ (computeGridFromCellSize cs).dimX ∧ (computeGridFromCellSize cs).dimX ≤ 40)
    ∧ (1 ≤ (computeGridFromCellSize cs).dimY ∧ (computeGridFromCellSize cs).dimY ≤ 40)
    ∧ (1 ≤ (computeGridFromCellSize cs).dimZ ∧ (computeGridFromCellSize cs).dimZ ≤ 40) := by
  have hpos : (0:ℚ) < cs := by linarith
  have hceil : ⌈(20:ℚ) / cs⌉ ≤ (40:ℤ) := by
    rw [Int.ceil_le]
    rw [div_le_iff₀ hpos]
    push_cast
    linarith
  have hm : ∀ c : ℤ, c ≤ 40 → 1 ≤ jmaxZ 1 c ∧ jmaxZ 1 c ≤ 40 := by
    intro c hc
    unfold jmaxZ
    split_ifs <;> omega
  have h20 : worldMaxQ.1 - worldMinQ.1 = 20 ∧ worldMaxQ.2.1 - worldMinQ.2.1 = 20
      ∧ worldMaxQ.2.2 - worldMinQ.2.2 = 20 := by
    norm_num [worldMaxQ, worldMinQ]
  simp only [computeGridFromCellSize, h20.1, h20.2.1, h20.2.2]
  exact ⟨hm _ hceil, hm _ hceil, hm _ hceil⟩

theorem cellCount_le_budget (cs : ℚ) (h : 1/2 ≤ cs) :
    cellCountOf (computeGridFromCellSize cs) ≤ maxCellCountC := by
  obtain ⟨⟨hx1, hx2⟩, ⟨hy1, hy2⟩, ⟨hz1, hz2⟩⟩ := dim_bounds cs h
  have hxy : (computeGridFromCellSize cs).dimX * (computeGridFromCellSize cs).dimY ≤ 1600 := by
    have := mul_le_mul hx2 hy2 (by omega) (by norm_num)
    omega
  have : cellCountOf (computeGridFromCellSize cs) ≤ 64000 := by
    unfold cellCountOf
    have := mul_le_mul hxy hz2 (by omega) (by norm_num)
    omega
  unfold maxCellCountC
  omega

theorem rebuildCellSize_eq (cbrtF : ℚ → ℚ) (r : ℚ) :
    rebuildCellSize cbrtF r = max (1/2) r := by
  have hcs : (1:ℚ)/2 ≤ jmaxQ (1/2) r := by
    rw [jmaxQ_eq_max]
    exact le_max_left _ _
  unfold rebuildCellSize
  rw [if_neg, jmaxQ_eq_max]
  intro hcond
  have := cellCount_le_budget (jmaxQ (1/2) r) hcs
  omega

/-- Claim C6: after every reallocation the cell size dominates the
    neighbor radius that induced it and the total cell count is within
    the 2^20 ceiling, whatever the float cbrt returns, both for the
    radius stored by the constructor and for the radius stored by any
    parameter update. -/
theorem grid_sizing_budget (cbrtF : ℚ → ℚ) (s : StoredParams) (p : ParamsUI) :
    ((initParams p).neighborRadius ≤ rebuildCellSize cbrtF (initParams p).neighborRadius
      ∧ cellCountOf (rebuildGridDims cbrtF (initParams p).neighborRadius) ≤ maxCellCountC)
    ∧ (((applyParamsUpdate s p).1).neighborRadius
        ≤ rebuildCellSize cbrtF ((applyParamsUpdate s p).1).neighborRadius
      ∧ cellCountOf (rebuildGridDims cbrtF ((applyParamsUpdate s p).1).neighborRadius)
        ≤ maxCellCountC) := by
  have key : ∀ r : ℚ,
      r ≤ rebuildCellSize cbrtF r ∧ cellCountOf (rebuildGridDims cbrtF r) ≤ maxCellCountC := by
    intro r
    have heq := rebuildCellSize_eq cbrtF r
    constructor
    · rw [heq]
      exact le_max_right _ _
    · unfold rebuildGridDims
      rw [heq]
      exact cellCount_le_budget _ (le_max_left _ _)
  exact ⟨key _, key _⟩

/-! ## Projection lemmas for the update handler -/

theorem applyParamsUpdate_snd (s : StoredParams) (p : ParamsUI) :
    (applyParamsUpdate s p).2
    = (decide (jlimitZ 1 100000 p.particleCount ≠ s.currentParticleCount)
       || decide (|p.neighborRadius - s.neighborRadius| > 1/10000)) := rfl

theorem applyParamsUpdate_nr (s : StoredParams) (p : ParamsUI) :
    ((applyParamsUpdate s p).1).neighborRadius = jlimitQ (5/100) 50 p.neighborRadius := rfl

theorem applyParamsUpdate_count (s : StoredParams) (p : ParamsUI) :
    ((applyParamsUpdate s p).1).currentParticleCount
    = (if (applyParamsUpdate s p).2
       then jlimitZ 1 100000 (jlimitZ 1 100000 p.particleCount)
       else s.currentParticleCount) := rfl

/-! ## Claim C9 -/

/-- Claim C9: the stored separation radius is clamped into
    [0.01, neighborRadius] both at construction and on every update, so
    it never exceeds the stored neighbor radius, even for the UI
    defaults, where the requested separation radius 2.07 exceeds the
    requested neighbor radius 1.34 and is clamped down to 1.34. -/
theorem separation_radius_invariant (s : StoredParams) (p : ParamsUI) :
    (1/100 ≤ (initParams p).separationRadius
      ∧ (initParams p).separationRadius ≤ (initParams p).neighborRadius)
    ∧ (1/100 ≤ ((applyParamsUpdate s p).1).separationRadius
      ∧ ((applyParamsUpdate s p).1).separationRadius
        ≤ ((applyParamsUpdate s p).1).neighborRadius)
    ∧ (initParams defaultParams).separationRadius = 134/100 := by
  have key : ∀ v w : ℚ,
      1/100 ≤ jlimitQ (1/100) (jlimitQ (5/100) 50 w) v
      ∧ jlimitQ (1/100) (jlimitQ (5/100) 50 w) v ≤ jlimitQ (5/100) 50 w := by
    intro v w
    have h1 := (jlimitQ_mem (5/100) 50 w (by norm_num)).1
    exact jlimitQ_mem (1/100) _ v (by linarith)
  refine ⟨?_, ?_, ?_⟩
  · have h1 : (initParams p).separationRadius
        = jlimitQ (1/100) (jlimitQ (5/100) 50 p.neighborRadius) p.separationRadius := by
      simp [initParams]
    have h2 : (initParams p).neighborRadius = jlimitQ (5/100) 50 p.neighborRadius := by
      simp [initParams]
    rw [h1, h2]
    exact key _ _
  · have h1 : ((applyParamsUpdate s p).1).separationRadius
        = jlimitQ (1/100) (jlimitQ (5/100) 50 p.neighborRadius) p.separationRadius := rfl
    rw [h1, applyParamsUpdate_nr]
    exact key _ _
  · norm_num [initParams, defaultParams, jlimitQ]

/-! ## Claim C10 -/

/-- Requested parameters that drive minSpeed to its clamp ceiling. -/
def speedBadParams : ParamsUI := { defaultParams with minSpeed := 1000, maxSpeed := 2000 }

/-- Claim C10 counterexample: requesting minSpeed = 1000 (the clamp
    ceiling) together with maxSpeed = 2000 stores minSpeed = maxSpeed
    = 1000, because jlimit is called with lower bound 1000.001 above
    its upper bound 1000; the stored maxSpeed is not strictly greater
    than the stored minSpeed and the normalization denominator
    maxSpeed - minSpeed is zero. -/
theorem speed_order_counterexample :
    ¬ ((initParams speedBadParams).minSpeed < (initParams speedBadParams).maxSpeed)
    ∧ (initParams speedBadParams).maxSpeed - (initParams speedBadParams).minSpeed = 0 := by
  norm_num [initParams, speedBadParams, defaultParams, jlimitQ, jmaxQ]

theorem clampedMax_gt (vmin vmax : ℚ) (h : jlimitQ 0 1000 vmin < 1000) :
    jlimitQ 0 1000 vmin
    < jlimitQ (jmaxQ (jlimitQ 0 1000 vmin + 1/1000) (1/100)) 1000 vmax := by
  have h0 : (0:ℚ) ≤ jlimitQ 0 1000 vmin := (jlimitQ_mem 0 1000 vmin (by norm_num)).1
  set m := jlimitQ 0 1000 vmin with hm
  rw [jmaxQ_eq_max]
  have hmx := le_max_left (m + 1/1000) (1/100 : ℚ)
  unfold jlimitQ
  split_ifs with h1 h2
  · linarith
  · linarith
  · push_neg at h1
    linarith

/-- Claim C10 amended: whenever the stored minSpeed is strictly below
    its clamp ceiling 1000, the stored maxSpeed is strictly greater than
    the stored minSpeed (so the normalization denominator is strictly
    positive), both at construction and after every parameter update;
    at the ceiling the ordering can fail as shown by the
    counterexample. -/
theorem speed_order_amended (s : StoredParams) (p : ParamsUI)
    (h : (initParams p).minSpeed < 1000) :
    (initParams p).minSpeed < (initParams p).maxSpeed
    ∧ ((applyParamsUpdate s p).1).minSpeed < ((applyParamsUpdate s p).1).maxSpeed := by
  have e1 : (initParams p).minSpeed = jlimitQ 0 1000 p.minSpeed := by
    simp [initParams]
  have e2 : (initParams p).maxSpeed
      = jlimitQ (jmaxQ (jlimitQ 0 1000 p.minSpeed + 1/1000) (1/100)) 1000 p.maxSpeed := by
    simp [initParams]
  have e3 : ((applyParamsUpdate s p).1).minSpeed = jlimitQ 0 1000 p.minSpeed := rfl
  have e4 : ((applyParamsUpdate s p).1).maxSpeed
      = jlimitQ (jmaxQ (jlimitQ 0 1000 p.minSpeed + 1/1000) (1/100)) 1000 p.maxSpeed := rfl
  rw [e1] at h
  rw [e1, e2, e3, e4]
  exact ⟨clampedMax_gt _ _ h, clampedMax_gt _ _ h⟩

/-- Claim C10 amended, witness at the UI defaults. -/
theorem speed_order_amended_witness :
    (initParams defaultParams).minSpeed < 1000
    ∧ ((initParams defaultParams).minSpeed < (initParams defaultParams).maxSpeed
      ∧ ((applyParamsUpdate (initParams defaultParams) defaultParams).1).minSpeed
        < ((applyParamsUpdate (initParams defaultParams) defaultParams).1).maxSpeed) :=
  ⟨by norm_num [initParams, defaultParams, jlimitQ],
   speed_order_amended (initParams defaultParams) defaultParams
     (by norm_num [initParams, defaultParams, jlimitQ])⟩

/-! ## Claim C7 -/

/-- Requested parameters moving the neighbor radius by 0.00005, inside
    the 1.0e-4 change tolerance of the update handler. -/
def radiusTweakParams : ParamsUI := { defaultParams with neighborRadius := 26801/20000 }

/-- Claim C7 counterexample: starting from the constructor state
    (stored neighbor radius 1.34), an update requesting neighbor radius
    1.34005 changes the stored clamped neighbor radius, yet the raw
    change is within the 1.0e-4 tolerance, so no reallocation is
    triggered: the effective neighbor radius changed without the grid
    being recomputed. -/
theorem param_update_trigger_counterexample :
    (applyParamsUpdate (initParams defaultParams) radiusTweakParams).2 = false
    ∧ (applyParamsUpdate (initParams defaultParams) radiusTweakParams).1.neighborRadius
      ≠ (initParams defaultParams).neighborRadius := by
  constructor
  · rw [applyParamsUpdate_snd, Bool.or_eq_false_iff]
    constructor
    · rw [decide_eq_false_iff_not]
      norm_num [initParams, defaultParams, radiusTweakParams, jlimitZ]
    · rw [decide_eq_false_iff_not]
      have : (initParams defaultParams).neighborRadius = 134/100 := by
        norm_num [initParams, defaultParams, jlimitQ]
      rw [this]
      rw [not_lt, abs_le]
      norm_num [radiusTweakParams, defaultParams]
  · rw [applyParamsUpdate_nr]
    have : (initParams defaultParams).neighborRadius = 134/100 := by
      norm_num [initParams, defaultParams, jlimitQ]
    rw [this]
    norm_num [radiusTweakParams, defaultParams, jlimitQ]

/-- Claim C7 amended: a reallocation is triggered exactly when the
    clamped particle count differs from the current count or the raw
    requested neighbor radius differs from the stored radius by more
    than 1.0e-4.  Any clamped-count change triggers synchronously; an
    update whose clamped count matches and whose raw radius is within
    tolerance triggers nothing; and when nothing is triggered the
    particle count is unchanged and the stored neighbor radius moves by
    at most 1.0e-4. -/
theorem param_update_trigger_amended (s : StoredParams) (p : ParamsUI)
    (hlo : 5/100 ≤ s.neighborRadius) (hhi : s.neighborRadius ≤ 50) :
    (jlimitZ 1 100000 p.particleCount ≠ s.currentParticleCount →
      (applyParamsUpdate s p).2 = true)
    ∧ (|p.neighborRadius - s.neighborRadius| > 1/10000 →
      (applyParamsUpdate s p).2 = true)
    ∧ (jlimitZ 1 100000 p.particleCount = s.currentParticleCount →
      |p.neighborRadius - s.neighborRadius| ≤ 1/10000 →
      (applyParamsUpdate s p).2 = false)
    ∧ ((applyParamsUpdate s p).2 = false →
      ((applyParamsUpdate s p).1).currentParticleCount = s.currentParticleCount
      ∧ |((applyParamsUpdate s p).1).neighborRadius - s.neighborRadius| ≤ 1/10000) := by
  refine ⟨?_, ?_, ?_, ?_⟩
  · intro hc
    rw [applyParamsUpdate_snd]
    simp [hc]
  · intro hr
    rw [applyParamsUpdate_snd]
    simp only [Bool.or_eq_true, decide_eq_true_eq]
    exact Or.inr (by linarith)
  · intro hc hr
    rw [applyParamsUpdate_snd]
    simp only [Bool.or_eq_false_iff, decide_eq_false_iff_not, not_not, not_lt]
    exact ⟨hc, hr⟩
  · intro hfalse
    constructor
    · rw [applyParamsUpdate_count, hfalse]
      simp
    · rw [applyParamsUpdate_snd, Bool.or_eq_false_iff] at hfalse
      obtain ⟨hc, hr⟩ := hfalse
      rw [decide_eq_false_iff_not, not_lt] at hr
      rw [applyParamsUpdate_nr]
      rw [abs_le] at hr ⊢
      unfold jlimitQ
      split_ifs with h1 h2
      · constructor <;> linarith
      · constructor <;> linarith
      · exact hr

/-- Claim C7 amended, witness at the UI defaults. -/
theorem param_update_trigger_amended_witness :
    (5/100 ≤ (initParams defaultParams).neighborRadius
      ∧ (initParams defaultParams).neighborRadius ≤ 50)
    ∧ ((jlimitZ 1 100000 defaultParams.particleCount
        ≠ (initParams defaultParams).currentParticleCount →
        (applyParamsUpdate (initParams defaultParams) defaultParams).2 = true)
      ∧ (|defaultParams.neighborRadius - (initParams defaultParams).neighborRadius| > 1/10000 →
        (applyParamsUpdate (initParams defaultParams) defaultParams).2 = true)
      ∧ (jlimitZ 1 100000 defaultParams.particleCount
          = (initParams defaultParams).currentParticleCount →
        |defaultParams.neighborRadius - (initParams defaultParams).neighborRadius| ≤ 1/10000 →
        (applyParamsUpdate (initParams defaultParams) defaultParams).2 = false)
      ∧ ((applyParamsUpdate (initParams defaultParams) defaultParams).2 = false →
        ((applyParamsUpdate (initParams defaultParams) defaultParams).1).currentParticleCount
          = (initParams defaultParams).currentParticleCount
        ∧ |((applyParamsUpdate (initParams defaultParams) defaultParams).1).neighborRadius
            - (initParams defaultParams).neighborRadius| ≤ 1/10000)) :=
  ⟨⟨by norm_num [initParams, defaultParams, jlimitQ],
    by norm_num [initParams, defaultParams, jlimitQ]⟩,
   param_update_trigger_amended (initParams defaultParams) defaultParams
     (by norm_num [initParams, defaultParams, jlimitQ])
     (by norm_num [initParams, defaultParams, jlimitQ])⟩

/-! ## Claim C8: buffer lifecycle (deleteBuffers lines 601-608,
rebuildBuffersOnGLThread lines 611-713, dispatchComputePasses lines
739-742).  All three run sequentially on the GL thread, so the
lifecycle is modelled as a sequential state machine whose rebuild
procedure is split at the statements that touch the readiness flag. -/

/-- Buffer operations issued by the per-tick compute dispatch. -/
inductive BufOp where
  | clearGridWrite
  | buildReadParticles
  | buildWriteGrid
  | stepReadParticles
  | stepReadGrid
  | stepWriteParticles

/-- Observable buffer lifecycle state: which SSBO groups are currently
    allocated, plus the buffersReady flag. -/
structure LifecycleState where
  particlesAllocated : Bool
  gridAllocated : Bool
  buffersReady : Bool

/-- deleteBuffers (lines 601-608): frees every SSBO and stores false
    into buffersReady. -/
def deleteBuffersM (_ : LifecycleState) : LifecycleState :=
  { particlesAllocated := false, gridAllocated := false, buffersReady := false }

/-- Sequential phases of rebuildBuffersOnGLThread in program order: the
    deleteBuffers call (line 615), grid sizing (624-650), SSBO creation
    (653-655), data generation and upload (657-710), and the final
    buffersReady.store true (line 712). -/
inductive RebuildPhase where
  | deleteOld
  | sizeGrid
  | allocBuffers
  | uploadData
  | markReady

def rebuildPhaseStep (s : LifecycleState) : RebuildPhase → LifecycleState
  | .deleteOld => deleteBuffersM s
  | .sizeGrid => s
  | .allocBuffers => { s with particlesAllocated := true, gridAllocated := true }
  | .uploadData => s
  | .markReady => { s with buffersReady := true }

def rebuildPhases : List RebuildPhase :=
  [.deleteOld, .sizeGrid, .allocBuffers, .uploadData, .markReady]

def runRebuild (s : LifecycleState) (l : List RebuildPhase) : LifecycleState :=
  l.foldl rebuildPhaseStep s

/-- dispatchComputePasses (739-816): returns at once when buffersReady
    is false, otherwise issues the clear, build and step passes over the
    particle and grid buffers. -/
def dispatchComputeOps (s : LifecycleState) : List BufOp :=
  if s.buffersReady then
    [.clearGridWrite, .buildReadParticles, .buildWriteGrid,
     .stepReadParticles, .stepReadGrid, .stepWriteParticles]
  else []

/-- Claim C8: from the moment a reallocation starts (its first phase is
    the deleteBuffers call) until its final phase completes, the
    readiness flag is false in every intermediate state, and whenever
    the flag is false the per-tick compute dispatch issues no buffer
    operation at all. -/
theorem buffers_ready_guard (s t : LifecycleState) (k : ℕ)
    (h1 : 1 ≤ k) (h2 : k < rebuildPhases.length) :
    (runRebuild s (rebuildPhases.take k)).buffersReady = false
    ∧ (t.buffersReady = false → dispatchComputeOps t = []) := by
  constructor
  · have h2v : k < 5 := by simpa [rebuildPhases] using h2
    interval_cases k <;>
      simp [runRebuild, rebuildPhases, rebuildPhaseStep, deleteBuffersM]
  · intro ht
    simp [dispatchComputeOps, ht]

/-- Claim C8 witness: two steps into a rebuild that started from a
    fully ready state, the flag is down and the dispatch does nothing
    from any not-ready state. -/
theorem buffers_ready_guard_witness :
    (runRebuild ⟨true, true, true⟩ (rebuildPhases.take 2)).buffersReady = false
    ∧ ((⟨false, false, false⟩ : LifecycleState).buffersReady = false →
      dispatchComputeOps ⟨false, false, false⟩ = []) :=
  buffers_ready_guard ⟨true, true, true⟩ ⟨false, false, false⟩ 2
    (by decide) (by decide)

/-! ## Claim C1: the spatial grid build.

The kernel files boids_clear.comp and boids_build.comp are loaded from
disk at runtime and are not part of the repository snapshot, so the
build pass is modelled from the spec (section 4.1; the uniforms it
receives are set in dispatchComputePasses lines 765-768).  Positions
are rationals; cell heads and next entries hold either a particle index
or none, modelling the sentinel -1. -/

/-- Particle position for the grid build. -/
structure Vec3Q where
  x : ℚ
  y : ℚ
  z : ℚ

/-- Grid geometry received by the build kernel: uniforms u_worldMin,
    u_cellSize and u_gridDims. -/
structure GridSpec where
  mnx : ℚ
  mny : ℚ
  mnz : ℚ
  cellSize : ℚ
  dimX : ℤ
  dimY : ℤ
  dimZ : ℤ

/-- GLSL clamp over ints: min(max(v, lo), hi). -/
def glslClampZ (v lo hi : ℤ) : ℤ := min (max v lo) hi

/-- Modelled from the spec: per-axis integer cell coordinate of the
    missing kernel boids_build.comp, spec 4.1 steps 1-2:
    floor((pos - worldMin) / cellSize), clamped into [0, dims-1]. -/
def cellCoord (mn cs : ℚ) (dim : ℤ) (x : ℚ) : ℤ :=
  glslClampZ ⌊(x - mn) / cs⌋ 0 (dim - 1)

/-- Modelled from the spec: flattened cell index of boids_build.comp,
    spec 4.1 step 3: x + dimsX * (y + dimsY * z). -/
def cellIndexZ (g : GridSpec) (p : Vec3Q) : ℤ :=
  cellCoord g.mnx g.cellSize g.dimX p.x
  + g.dimX * (cellCoord g.mny g.cellSize g.dimY p.y
              + g.dimY * cellCoord g.mnz g.cellSize g.dimZ p.z)

/-- Cell index as an array subscript. -/
def cellIndexN (g : GridSpec) (p : Vec3Q) : ℕ := (cellIndexZ g p).toNat

theorem cellCoord_bounds (mn cs : ℚ) (dim : ℤ) (x : ℚ) (h : 1 ≤ dim) :
    0 ≤ cellCoord mn cs dim x ∧ cellCoord mn cs dim x ≤ dim - 1 := by
  unfold cellCoord glslClampZ
  omega

theorem cellIndexZ_bounds (g : GridSpec) (p : Vec3Q)
    (hx : 1 ≤ g.dimX) (hy : 1 ≤ g.dimY) (hz : 1 ≤ g.dimZ) :
    0 ≤ cellIndexZ g p ∧ cellIndexZ g p < g.dimX * g.dimY * g.dimZ := by
  obtain ⟨hx0, hx1⟩ := cellCoord_bounds g.mnx g.cellSize g.dimX p.x hx
  obtain ⟨hy0, hy1⟩ := cellCoord_bounds g.mny g.cellSize g.dimY p.y hy
  obtain ⟨hz0, hz1⟩ := cellCoord_bounds g.mnz g.cellSize g.dimZ p.z hz
  unfold cellIndexZ
  constructor
  · have hyz : 0 ≤ cellCoord g.mny g.cellSize g.dimY p.y
        + g.dimY * cellCoord g.mnz g.cellSize g.dimZ p.z :=
      add_nonneg hy0 (mul_nonneg (by omega) hz0)
    exact add_nonneg hx0 (mul_nonneg (by omega) hyz)
  · have h1 : g.dimY * cellCoord g.mnz g.cellSize g.dimZ p.z ≤ g.dimY * (g.dimZ - 1) :=
      mul_le_mul_of_nonneg_left hz1 (by omega)
    have hinner : cellCoord g.mny g.cellSize g.dimY p.y
        + g.dimY * cellCoord g.mnz g.cellSize g.dimZ p.z ≤ g.dimY * g.dimZ - 1 := by
      nlinarith
    have h2 : g.dimX * (cellCoord g.mny g.cellSize g.dimY p.y
        + g.dimY * cellCoord g.mnz g.cellSize g.dimZ p.z)
        ≤ g.dimX * (g.dimY * g.dimZ - 1) :=
      mul_le_mul_of_nonneg_left hinner (by omega)
    nlinarith

theorem cellIndexN_lt (g : GridSpec) (p : Vec3Q)
    (hx : 1 ≤ g.dimX) (hy : 1 ≤ g.dimY) (hz : 1 ≤ g.dimZ) :
    cellIndexN g p < (g.dimX * g.dimY * g.dimZ).toNat := by
  obtain ⟨h0, h1⟩ := cellIndexZ_bounds g p hx hy hz
  unfold cellIndexN
  omega

/-- Grid build state: cell heads and per-particle next entries; none is
    the sentinel -1. -/
structure BuildState where
  heads : ℕ → Option ℕ
  next : ℕ → Option ℕ

/-- State after the clear pass: every head holds the sentinel and no
    next entry has been written yet. -/
def clearedState : BuildState where
  heads := fun _ => none
  next := fun _ => none

/-- Modelled from the spec: one insertion of the missing kernel
    boids_build.comp, spec 4.1 step 4, as a single indivisible action:
    prev = atomicExchange(head[cell], i); next[i] = prev. -/
def insertParticle (g : GridSpec) (pos : ℕ → Vec3Q) (s : BuildState) (i : ℕ) : BuildState where
  heads := fun c => if c = cellIndexN g (pos i) then some i else s.heads c
  next := fun j => if j = i then s.heads (cellIndexN g (pos i)) else s.next j

/-- Modelled from the spec: the whole build pass, executing the atomic
    insertions in the sequential order given by the list.  An arbitrary
    interleaving of the concurrent insertions is equivalent to some such
    order: the exchange is a single indivisible read-modify-write, it is
    the only access to shared state, and each write to next[i] is
    private to invocation i and only read after the phase barrier. -/
def buildGrid (g : GridSpec) (pos : ℕ → Vec3Q) (order : List ℕ) : BuildState :=
  order.foldl (insertParticle g pos) clearedState

/-- List traversal i = head[c]; while i != -1 do (visit i; i = next[i]),
    with explicit fuel. -/
def walkList (nx : ℕ → Option ℕ) : Option ℕ → ℕ → List ℕ
  | none, _ => []
  | some _, 0 => []
  | some i, fuel + 1 => i :: walkList nx (nx i) fuel

/-- The head and the next entries spell out exactly the list l. -/
def Chain (nx : ℕ → Option ℕ) : Option ℕ → List ℕ → Prop
  | h, [] => h = none
  | h, i :: l => h = some i ∧ Chain nx (nx i) l

theorem walkList_of_chain (nx : ℕ → Option ℕ) :
    ∀ (l : List ℕ) (h : Option ℕ) (fuel : ℕ), Chain nx h l → l.length ≤ fuel →
      walkList nx h fuel = l := by
  intro l
  induction l with
  | nil =>
    intro h fuel hc _
    have he : h = none := hc
    subst he
    cases fuel <;> rfl
  | cons a l ih =>
    intro h fuel hc hlen
    obtain ⟨h1, h2⟩ : h = some a ∧ Chain nx (nx a) l := hc
    subst h1
    cases fuel with
    | zero => simp at hlen
    | succ f =>
      simp only [walkList]
      rw [ih (nx a) f h2 (by simpa using hlen)]

theorem chain_update (nx : ℕ → Option ℕ) (i : ℕ) (v : Option ℕ) :
    ∀ (l : List ℕ) (h : Option ℕ), Chain nx h l → i ∉ l →
      Chain (fun j => if j = i then v else nx j) h l := by
  intro l
  induction l with
  | nil =>
    intro h hc _
    exact hc
  | cons a l ih =>
    intro h hc hmem
    obtain ⟨h1, h2⟩ : h = some a ∧ Chain nx (nx a) l := hc
    have hai : a ≠ i := by
      intro he
      exact hmem (he ▸ List.mem_cons_self a l)
    refine ⟨h1, ?_⟩
    show Chain _ (if a = i then v else nx a) l
    rw [if_neg hai]
    exact ih (nx a) h2 (fun hm => hmem (List.mem_cons_of_mem _ hm))

/-- Particles filed in cell c after the build, in traversal order
    (newest insertion first). -/
def cellListOf (g : GridSpec) (pos : ℕ → Vec3Q) (order : List ℕ) (c : ℕ) : List ℕ :=
  (order.filter (fun i => decide (cellIndexN g (pos i) = c))).reverse

theorem cellListOf_subset (g : GridSpec) (pos : ℕ → Vec3Q) (order : List ℕ) (c j : ℕ)
    (hj : j ∈ cellListOf g pos order c) : j ∈ order := by
  unfold cellListOf at hj
  rw [List.mem_reverse] at hj
  exact (List.mem_filter.mp hj).1

theorem build_chain (g : GridSpec) (pos : ℕ → Vec3Q) :
    ∀ (order : List ℕ), order.Nodup →
      ∀ c, Chain (buildGrid g pos order).next ((buildGrid g pos order).heads c)
        (cellListOf g pos order c) := by
  intro order
  induction order using List.reverseRecOn with
  | nil =>
    intro _ c
    show Chain _ none []
    rfl
  | append_singleton order i ih =>
    intro hnd c
    rw [List.nodup_append] at hnd
    obtain ⟨hnd0, _, hdisj⟩ := hnd
    have hio : i ∉ order := fun hm => hdisj hm (List.mem_singleton_self i)
    have hb : buildGrid g pos (order ++ [i])
        = insertParticle g pos (buildGrid g pos order) i := by
      simp [buildGrid, List.foldl_append]
    rw [hb]
    have hcl : cellListOf g pos (order ++ [i]) c
        = if cellIndexN g (pos i) = c then i :: cellListOf g pos order c
          else cellListOf g pos order c := by
      unfold cellListOf
      rw [List.filter_append]
      by_cases hc : cellIndexN g (pos i) = c
      · simp [hc]
      · simp [hc]
    rw [hcl]
    by_cases hc : cellIndexN g (pos i) = c
    · rw [if_pos hc]
      refine ⟨?_, ?_⟩
      · show (if c = cellIndexN g (pos i) then some i else (buildGrid g pos order).heads c)
            = some i
        rw [if_pos hc.symm]
      · show Chain _
          (if i = i then (buildGrid g pos order).heads (cellIndexN g (pos i))
           else (buildGrid g pos order).next i)
          (cellListOf g pos order c)
        rw [if_pos rfl, hc]
        exact chain_update _ i _ _ _ (ih hnd0 c)
          (fun hm => hio (cellListOf_subset g pos order c i hm))
    · rw [if_neg hc]
      show Chain _ (if c = cellIndexN g (pos i) then some i
          else (buildGrid g pos order).heads c) (cellListOf g pos order c)
      rw [if_neg (fun h => hc h.symm)]
      exact chain_update _ i _ _ _ (ih hnd0 c)
        (fun hm => hio (cellListOf_subset g pos order c i hm))

theorem sum_length_filter (f : ℕ → ℕ) (m : ℕ) (hf : ∀ i, f i < m) :
    ∀ l : List ℕ,
      (∑ c ∈ Finset.range m, (l.filter (fun i => decide (f i = c))).length) = l.length := by
  intro l
  induction l with
  | nil => simp
  | cons a l ih =>
    have hstep : ∀ c, ((a :: l).filter (fun i => decide (f i = c))).length
        = (if f a = c then 1 else 0) + (l.filter (fun i => decide (f i = c))).length := by
      intro c
      rw [List.filter_cons]
      by_cases h : f a = c
      · simp [h, Nat.add_comm]
      · simp [h]
    simp only [hstep]
    rw [Finset.sum_add_distrib, ih]
    rw [Finset.sum_ite_eq (Finset.range m) (f a) (fun _ => 1)]
    rw [if_pos (Finset.mem_range.mpr (hf a))]
    simp [Nat.add_comm]

/-- Claim C1: after the build pass of a tick, for every cell c, walking
    from the head via the next entries visits exactly the particles
    whose computed cell is c, with no duplicate, and the traversed
    lengths over all cells add up to the particle count n, regardless of
    the order (interleaving) in which the atomic insertions executed. -/
theorem grid_build_complete (g : GridSpec) (pos : ℕ → Vec3Q) (n : ℕ)
    (order : List ℕ) (c i : ℕ)
    (hx : 1 ≤ g.dimX) (hy : 1 ≤ g.dimY) (hz : 1 ≤ g.dimZ)
    (hperm : order.Perm (List.range n)) :
    (i ∈ walkList (buildGrid g pos order).next ((buildGrid g pos order).heads c) n
      ↔ (i < n ∧ cellIndexN g (pos i) = c))
    ∧ (walkList (buildGrid g pos order).next ((buildGrid g pos order).heads c) n).Nodup
    ∧ (∑ c2 ∈ Finset.range ((g.dimX * g.dimY * g.dimZ).toNat),
        (walkList (buildGrid g pos order).next
          ((buildGrid g pos order).heads c2) n).length) = n := by
  have hnd : order.Nodup := hperm.nodup_iff.mpr (List.nodup_range n)
  have hwalk : ∀ c2, walkList (buildGrid g pos order).next
      ((buildGrid g pos order).heads c2) n = cellListOf g pos order c2 := by
    intro c2
    apply walkList_of_chain _ _ _ _ (build_chain g pos order hnd c2)
    calc (cellListOf g pos order c2).length
        ≤ order.length := by
          unfold cellListOf
          rw [List.length_reverse]
          exact List.length_filter_le _ _
      _ = n := by rw [hperm.length_eq, List.length_range]
  refine ⟨?_, ?_, ?_⟩
  · rw [hwalk c]
    unfold cellListOf
    rw [List.mem_reverse, List.mem_filter]
    simp only [decide_eq_true_eq]
    constructor
    · rintro ⟨hmo, hci⟩
      exact ⟨List.mem_range.mp (hperm.mem_iff.mp hmo), hci⟩
    · rintro ⟨hin, hci⟩
      exact ⟨hperm.mem_iff.mpr (List.mem_range.mpr hin), hci⟩
  · rw [hwalk c]
    exact List.nodup_reverse.mpr (hnd.filter _)
  · have hsum := sum_length_filter (fun j => cellIndexN g (pos j))
      ((g.dimX * g.dimY * g.dimZ).toNat)
      (fun j => cellIndexN_lt g (pos j) hx hy hz) order
    calc (∑ c2 ∈ Finset.range ((g.dimX * g.dimY * g.dimZ).toNat),
          (walkList (buildGrid g pos order).next
            ((buildGrid g pos order).heads c2) n).length)
        = ∑ c2 ∈ Finset.range ((g.dimX * g.dimY * g.dimZ).toNat),
            (order.filter (fun j => decide (cellIndexN g (pos j) = c2))).length := by
          refine Finset.sum_congr rfl (fun c2 _ => ?_)
          rw [hwalk c2]
          unfold cellListOf
          rw [List.length_reverse]
      _ = order.length := hsum
      _ = n := by rw [hperm.length_eq, List.length_range]

/-- Claim C1 witness: a 2x2x2 grid, three particles inserted in the
    order 2, 0, 1. -/
theorem grid_build_complete_witness :
    ((1 : ℕ) ∈ walkList
        (buildGrid ⟨0, 0, 0, 1, 2, 2, 2⟩ (fun j => ⟨(j : ℚ), 0, 0⟩) [2, 0, 1]).next
        ((buildGrid ⟨0, 0, 0, 1, 2, 2, 2⟩ (fun j => ⟨(j : ℚ), 0, 0⟩) [2, 0, 1]).heads 1) 3
      ↔ (1 < 3 ∧ cellIndexN ⟨0, 0, 0, 1, 2, 2, 2⟩ ⟨((1 : ℕ) : ℚ), 0, 0⟩ = 1))
    ∧ (walkList
        (buildGrid ⟨0, 0, 0, 1, 2, 2, 2⟩ (fun j => ⟨(j : ℚ), 0, 0⟩) [2, 0, 1]).next
        ((buildGrid ⟨0, 0, 0, 1, 2, 2, 2⟩ (fun j => ⟨(j : ℚ), 0, 0⟩) [2, 0, 1]).heads 1)
        3).Nodup
    ∧ (∑ c2 ∈ Finset.range ((2 * 2 * 2 : ℤ).toNat),
        (walkList
          (buildGrid ⟨0, 0, 0, 1, 2, 2, 2⟩ (fun j => ⟨(j : ℚ), 0, 0⟩) [2, 0, 1]).next
          ((buildGrid ⟨0, 0, 0, 1, 2, 2, 2⟩ (fun j => ⟨(j : ℚ), 0, 0⟩) [2, 0, 1]).heads c2)
          3).length) = 3 :=
  grid_build_complete ⟨0, 0, 0, 1, 2, 2, 2⟩ (fun j => ⟨(j : ℚ), 0, 0⟩) 3 [2, 0, 1] 1 1
    (by decide) (by decide) (by decide) (by decide)

/-! ## Real-vector model for the numeric kernels (claims C2-C5).

Floats are idealised as reals because the kernel math divides by
euclidean lengths.  The particle generation is in MainComponent.cpp
(rebuildBuffersOnGLThread lines 657-694); the step kernel
boids_step.comp is loaded from disk at runtime and not part of the
repository snapshot, so it is modelled from the spec (section 4.2). -/

noncomputable section

/-- 3D real vector (GLSL vec3, juce Vector3D). -/
structure Vec3 where
  x : ℝ
  y : ℝ
  z : ℝ

instance : Add Vec3 := ⟨fun a b => ⟨a.x + b.x, a.y + b.y, a.z + b.z⟩⟩

instance : Sub Vec3 := ⟨fun a b => ⟨a.x - b.x, a.y - b.y, a.z - b.z⟩⟩

instance : SMul ℝ Vec3 := ⟨fun c v => ⟨c * v.x, c * v.y, c * v.z⟩⟩

instance : Zero Vec3 := ⟨⟨0, 0, 0⟩⟩

@[simp] theorem vec_add_x (a b : Vec3) : (a + b).x = a.x + b.x := rfl

@[simp] theorem vec_add_y (a b : Vec3) : (a + b).y = a.y + b.y := rfl

@[simp] theorem vec_add_z (a b : Vec3) : (a + b).z = a.z + b.z := rfl

@[simp] theorem vec_sub_x (a b : Vec3) : (a - b).x = a.x - b.x := rfl

@[simp] theorem vec_sub_y (a b : Vec3) : (a - b).y = a.y - b.y := rfl

@[simp] theorem vec_sub_z (a b : Vec3) : (a - b).z = a.z - b.z := rfl

@[simp] theorem vec_smul_x (c : ℝ) (v : Vec3) : (c • v).x = c * v.x := rfl

@[simp] theorem vec_smul_y (c : ℝ) (v : Vec3) : (c • v).y = c * v.y := rfl

@[simp] theorem vec_smul_z (c : ℝ) (v : Vec3) : (c • v).z = c * v.z := rfl

@[simp] theorem vec_zero_x : (0 : Vec3).x = 0 := rfl

@[simp] theorem vec_zero_y : (0 : Vec3).y = 0 := rfl

@[simp] theorem vec_zero_z : (0 : Vec3).z = 0 := rfl

/-- Squared euclidean norm. -/
def normSq (v : Vec3) : ℝ := v.x ^ 2 + v.y ^ 2 + v.z ^ 2

/-- Euclidean length (GLSL length, juce Vector3D length). -/
def vlen (v : Vec3) : ℝ := Real.sqrt (normSq v)

/-- Componentwise division by the length (juce normalised, GLSL
    normalize). -/
def normalize3 (v : Vec3) : Vec3 := ⟨v.x / vlen v, v.y / vlen v, v.z / vlen v⟩

theorem normSq_nonneg (v : Vec3) : 0 ≤ normSq v := by
  unfold normSq
  positivity

theorem vlen_smul (c : ℝ) (v : Vec3) : vlen (c • v) = |c| * vlen v := by
  unfold vlen
  have h1 : normSq (c • v) = c ^ 2 * normSq v := by
    simp [normSq]
    ring
  rw [h1, Real.sqrt_mul (sq_nonneg c), Real.sqrt_sq_eq_abs]

theorem vlen_normalize (v : Vec3) (h : vlen v ≠ 0) : vlen (normalize3 v) = 1 := by
  have hS0 : 0 ≤ normSq v := normSq_nonneg v
  have hS : 0 < normSq v := by
    rcases hS0.lt_or_eq with h1 | h1
    · exact h1
    · exact absurd (by unfold vlen; rw [← h1, Real.sqrt_zero]) h
  have hL2 : vlen v ^ 2 = normSq v := Real.sq_sqrt hS0
  have key : normSq (normalize3 v) = normSq v / vlen v ^ 2 := by
    unfold normalize3 normSq
    ring
  have hone : normSq (normalize3 v) = 1 := by
    rw [key, hL2, div_self (ne_of_gt hS)]
  show Real.sqrt (normSq (normalize3 v)) = 1
  rw [hone, Real.sqrt_one]

/-! ## Claim C2: particle regeneration on reallocation
(rebuildBuffersOnGLThread lines 611-713). -/

/-- World box lower corner (MainComponent.h). -/
def worldMinR : Vec3 := ⟨-10, -10, -10⟩

/-- World box upper corner (MainComponent.h). -/
def worldMaxR : Vec3 := ⟨10, 10, 10⟩

/-- One draw of uniform_real_distribution(a, b), parametrised by the
    underlying uniform u in [0, 1]. -/
def uniformDraw (a b u : ℝ) : ℝ := a + u * (b - a)

/-- Particle count stored by a reallocation (line 617). -/
def rebuildCount (k : ℤ) : ℤ := jlimitZ 1 100000 k

/-- Initial particle position (lines 662-664 and 670-672): one uniform
    draw per axis inside the world box. -/
def genPos (ux uy uz : ℝ) : Vec3 :=
  ⟨uniformDraw worldMinR.x worldMaxR.x ux,
   uniformDraw worldMinR.y worldMaxR.y uy,
   uniformDraw worldMinR.z worldMaxR.z uz⟩

/-- Initial heading (lines 675-678): a random direction, replaced by
    (1,0,0) when its length is below 1.0e-3, then normalised. -/
def genDir (d : Vec3) : Vec3 :=
  normalize3 (if vlen d < 1/1000 then ⟨1, 0, 0⟩ else d)

/-- Initial speed (line 666): uniform draw in
    [minSpeed, jmax(minSpeed, maxSpeed / 2)]. -/
def genSpeed (minS maxS u : ℝ) : ℝ := uniformDraw minS (max minS (maxS / 2)) u

/-- Initial velocity (lines 680-686): unit heading times speed. -/
def genVel (minS maxS u : ℝ) (d : Vec3) : Vec3 := genSpeed minS maxS u • genDir d

theorem uniformDraw_mem (a b u : ℝ) (hab : a ≤ b) (h0 : 0 ≤ u) (h1 : u ≤ 1) :
    a ≤ uniformDraw a b u ∧ uniformDraw a b u ≤ b := by
  unfold uniformDraw
  constructor
  · nlinarith
  · nlinarith

/-- Claim C2: a reallocation requesting k particles stores exactly
    min(max(k,1),100000) of them, and every regenerated particle has a
    position inside the world box, a unit heading, and a speed within
    [minSpeed, maxSpeed], for every random draw. -/
theorem rebuild_particles_spec (k : ℤ) (ux uy uz us minS maxS : ℝ) (d : Vec3)
    (hux0 : 0 ≤ ux) (hux1 : ux ≤ 1) (huy0 : 0 ≤ uy) (huy1 : uy ≤ 1)
    (huz0 : 0 ≤ uz) (huz1 : uz ≤ 1) (hus0 : 0 ≤ us) (hus1 : us ≤ 1)
    (hm0 : 0 ≤ minS) (hmm : minS ≤ maxS) :
    rebuildCount k = min (max k 1) 100000
    ∧ (worldMinR.x ≤ (genPos ux uy uz).x ∧ (genPos ux uy uz).x ≤ worldMaxR.x)
    ∧ (worldMinR.y ≤ (genPos ux uy uz).y ∧ (genPos ux uy uz).y ≤ worldMaxR.y)
    ∧ (worldMinR.z ≤ (genPos ux uy uz).z ∧ (genPos ux uy uz).z ≤ worldMaxR.z)
    ∧ vlen (genDir d) = 1
    ∧ (minS ≤ genSpeed minS maxS us ∧ genSpeed minS maxS us ≤ maxS)
    ∧ genVel minS maxS us d = genSpeed minS maxS us • genDir d := by
  have hbox : worldMinR.x ≤ worldMaxR.x ∧ worldMinR.y ≤ worldMaxR.y
      ∧ worldMinR.z ≤ worldMaxR.z := by
    norm_num [worldMinR, worldMaxR]
  refine ⟨jlimitZ_eq_min_max 1 100000 k (by norm_num), ?_, ?_, ?_, ?_, ?_, rfl⟩
  · exact uniformDraw_mem _ _ _ hbox.1 hux0 hux1
  · exact uniformDraw_mem _ _ _ hbox.2.1 huy0 huy1
  · exact uniformDraw_mem _ _ _ hbox.2.2 huz0 huz1
  · unfold genDir
    by_cases hd : vlen d < 1/1000
    · rw [if_pos hd]
      apply vlen_normalize
      have : vlen ⟨1, 0, 0⟩ = 1 := by
        unfold vlen normSq
        norm_num
      rw [this]
      norm_num
    · rw [if_neg hd]
      apply vlen_normalize
      push_neg at hd
      intro he
      rw [he] at hd
      norm_num at hd
  · have hub : max minS (maxS / 2) ≤ maxS := by
      apply max_le hmm
      linarith
    have h := uniformDraw_mem minS (max minS (maxS / 2)) us (le_max_left _ _) hus0 hus1
    exact ⟨h.1, le_trans h.2 hub⟩

/-- Claim C2 witness: the over-limit request k = 150000 from the spec,
    with all uniform draws at one half and the heading draw (1,0,0). -/
theorem rebuild_particles_spec_witness :
    rebuildCount 150000 = min (max 150000 1) 100000
    ∧ (worldMinR.x ≤ (genPos (1/2) (1/2) (1/2)).x
      ∧ (genPos (1/2) (1/2) (1/2)).x ≤ worldMaxR.x)
    ∧ (worldMinR.y ≤ (genPos (1/2) (1/2) (1/2)).y
      ∧ (genPos (1/2) (1/2) (1/2)).y ≤ worldMaxR.y)
    ∧ (worldMinR.z ≤ (genPos (1/2) (1/2) (1/2)).z
      ∧ (genPos (1/2) (1/2) (1/2)).z ≤ worldMaxR.z)
    ∧ vlen (genDir ⟨1, 0, 0⟩) = 1
    ∧ ((1:ℝ) ≤ genSpeed 1 10 (1/2) ∧ genSpeed 1 10 (1/2) ≤ 10)
    ∧ genVel 1 10 (1/2) ⟨1, 0, 0⟩ = genSpeed 1 10 (1/2) • genDir ⟨1, 0, 0⟩ :=
  rebuild_particles_spec 150000 (1/2) (1/2) (1/2) (1/2) 1 10 ⟨1, 0, 0⟩
    (by norm_num) (by norm_num) (by norm_num) (by norm_num) (by norm_num)
    (by norm_num) (by norm_num) (by norm_num) (by norm_num) (by norm_num)

/-! ## Claims C3, C4, C5: the step kernel.

Modelled from the spec: the kernel file boids_step.comp is loaded from
disk at runtime and is not part of the repository snapshot; steps 2-8 of
spec section 4.2 are embedded below.  The neighbor accumulators of step
1 (position sum, velocity sum, separation sum and the two counts) enter
as inputs, so the theorems quantify over every value the bounded
neighbor scan could produce. -/

/-- Per-particle uniforms of the step kernel, as set in
    dispatchComputePasses (lines 781-809). -/
structure StepParams where
  dt : ℝ
  neighborRadius : ℝ
  separationRadius : ℝ
  weightSeparation : ℝ
  weightAlignment : ℝ
  weightCohesion : ℝ
  minSpeed : ℝ
  maxSpeed : ℝ
  maxAccel : ℝ
  centerAttraction : ℝ
  boundaryMargin : ℝ
  boundaryStrength : ℝ
  wrapBounds : Bool
  mn : Vec3
  mx : Vec3

/-- Modelled from the spec: the numerically-negligible speed threshold
    of spec 4.2 step 6; the spec does not fix the epsilon value. -/
def speedEpsR : ℝ := 1 / 1000000

/-- Modelled from the spec: the fixed fallback direction of spec 4.2
    step 6. -/
def fallbackDir : Vec3 := ⟨1, 0, 0⟩

/-- Modelled from the spec: per-axis soft boundary steering (spec 4.2
    step 3): inside a margin band of width boundaryMargin at either
    face, a push back toward the interior that grows linearly with the
    penetration depth, scaled by boundaryStrength. -/
def softBoundaryAxis (mn mx margin strength x : ℝ) : ℝ :=
  (if x < mn + margin then strength * ((mn + margin - x) / margin) else 0)
  + (if mx - margin < x then -(strength * ((x - (mx - margin)) / margin)) else 0)

/-- Soft boundary acceleration, one term per axis face. -/
def softBoundaryAccel (P : StepParams) (pos : Vec3) : Vec3 :=
  ⟨softBoundaryAxis P.mn.x P.mx.x P.boundaryMargin P.boundaryStrength pos.x,
   softBoundaryAxis P.mn.y P.mx.y P.boundaryMargin P.boundaryStrength pos.y,
   softBoundaryAxis P.mn.z P.mx.z P.boundaryMargin P.boundaryStrength pos.z⟩

/-- Modelled from the spec: steering acceleration (spec 4.2 steps 2-4):
    weighted cohesion, alignment and separation steering from the
    neighbor accumulators, plus the center pull, plus the soft-boundary
    term when wrap is off, then a direction-preserving clamp to
    maxAccel. -/
def accelOf (P : StepParams) (pos vel posSum velSum sepSum : Vec3) (cnt sepCnt : ℕ) : Vec3 :=
  let steerCoh : Vec3 := if cnt = 0 then 0 else ((cnt : ℝ)⁻¹ • posSum) - pos
  let steerAli : Vec3 := if cnt = 0 then 0 else ((cnt : ℝ)⁻¹ • velSum) - vel
  let steerSep : Vec3 := if sepCnt = 0 then 0 else (sepCnt : ℝ)⁻¹ • sepSum
  let center : Vec3 := (1/2 : ℝ) • (P.mn + P.mx)
  let a0 : Vec3 := P.weightSeparation • steerSep + P.weightAlignment • steerAli
    + P.weightCohesion • steerCoh + P.centerAttraction • (center - pos)
  let a1 : Vec3 := if P.wrapBounds then a0 else a0 + softBoundaryAccel P pos
  if P.maxAccel < vlen a1 then (P.maxAccel / vlen a1) • a1 else a1

/-- Modelled from the spec: Euler step for velocity (spec 4.2 step 5):
    vel + accel * dt. -/
def velIntegrated (P : StepParams) (pos vel posSum velSum sepSum : Vec3)
    (cnt sepCnt : ℕ) : Vec3 :=
  vel + P.dt • accelOf P pos vel posSum velSum sepSum cnt sepCnt

/-- Modelled from the spec: Euler step for position (spec 4.2 step 5):
    pos + vel * dt with the updated velocity. -/
def posIntegrated (P : StepParams) (pos vel posSum velSum sepSum : Vec3)
    (cnt sepCnt : ℕ) : Vec3 :=
  pos + P.dt • velIntegrated P pos vel posSum velSum sepSum cnt sepCnt

/-- Modelled from the spec: speed clamp (spec 4.2 step 6): a negligible
    post-integration speed is replaced by the fallback direction at the
    stored minimum speed; otherwise the velocity is rescaled, direction
    preserved, so that its length is clamp(speed, minSpeed, maxSpeed). -/
def clampSpeed (P : StepParams) (v : Vec3) : Vec3 :=
  if vlen v < speedEpsR then P.minSpeed • fallbackDir
  else (min P.maxSpeed (max P.minSpeed (vlen v)) / vlen v) • v

/-- Modelled from the spec: boundary enforcement on one axis (spec 4.2
    step 7): wrap mode translates an out-of-box coordinate by the full
    extent of the axis; soft mode hard-clamps into the box. -/
def applyBoundsAxis (wrap : Bool) (mn mx x : ℝ) : ℝ :=
  if wrap then
    (if x < mn then x + (mx - mn) else if mx < x then x - (mx - mn) else x)
  else min mx (max mn x)

/-- Boundary enforcement, axis by axis. -/
def applyBounds (P : StepParams) (p : Vec3) : Vec3 :=
  ⟨applyBoundsAxis P.wrapBounds P.mn.x P.mx.x p.x,
   applyBoundsAxis P.wrapBounds P.mn.y P.mx.y p.y,
   applyBoundsAxis P.wrapBounds P.mn.z P.mx.z p.z⟩

/-- Modelled from the spec: one tick of the step kernel for one
    particle, producing the next position and velocity (spec 4.2). -/
def boidsStep (P : StepParams) (pos vel posSum velSum sepSum : Vec3)
    (cnt sepCnt : ℕ) : Vec3 × Vec3 :=
  (applyBounds P (posIntegrated P pos vel posSum velSum sepSum cnt sepCnt),
   clampSpeed P (velIntegrated P pos vel posSum velSum sepSum cnt sepCnt))

theorem applyBoundsAxis_soft_mem (mn mx x : ℝ) (h : mn ≤ mx) :
    mn ≤ applyBoundsAxis false mn mx x ∧ applyBoundsAxis false mn mx x ≤ mx := by
  unfold applyBoundsAxis
  simp only [Bool.false_eq_true, if_false]
  exact ⟨le_min h (le_max_left _ _), min_le_left _ _⟩

/-- Claim C3: in soft-boundary mode the position produced by a tick is
    inside the world box componentwise, for arbitrary parameter values
    and arbitrary neighbor accumulators, because the position is
    hard-clamped after integration. -/
theorem soft_bounds_containment (P : StepParams) (pos vel posSum velSum sepSum : Vec3)
    (cnt sepCnt : ℕ) (hwrap : P.wrapBounds = false)
    (hx : P.mn.x ≤ P.mx.x) (hy : P.mn.y ≤ P.mx.y) (hz : P.mn.z ≤ P.mx.z) :
    (P.mn.x ≤ (boidsStep P pos vel posSum velSum sepSum cnt sepCnt).1.x
      ∧ (boidsStep P pos vel posSum velSum sepSum cnt sepCnt).1.x ≤ P.mx.x)
    ∧ (P.mn.y ≤ (boidsStep P pos vel posSum velSum sepSum cnt sepCnt).1.y
      ∧ (boidsStep P pos vel posSum velSum sepSum cnt sepCnt).1.y ≤ P.mx.y)
    ∧ (P.mn.z ≤ (boidsStep P pos vel posSum velSum sepSum cnt sepCnt).1.z
      ∧ (boidsStep P pos vel posSum velSum sepSum cnt sepCnt).1.z ≤ P.mx.z) := by
  have ex : (boidsStep P pos vel posSum velSum sepSum cnt sepCnt).1.x
      = applyBoundsAxis P.wrapBounds P.mn.x P.mx.x
        (posIntegrated P pos vel posSum velSum sepSum cnt sepCnt).x := rfl
  have ey : (boidsStep P pos vel posSum velSum sepSum cnt sepCnt).1.y
      = applyBoundsAxis P.wrapBounds P.mn.y P.mx.y
        (posIntegrated P pos vel posSum velSum sepSum cnt sepCnt).y := rfl
  have ez : (boidsStep P pos vel posSum velSum sepSum cnt sepCnt).1.z
      = applyBoundsAxis P.wrapBounds P.mn.z P.mx.z
        (posIntegrated P pos vel posSum velSum sepSum cnt sepCnt).z := rfl
  rw [ex, ey, ez, hwrap]
  exact ⟨applyBoundsAxis_soft_mem _ _ _ hx, applyBoundsAxis_soft_mem _ _ _ hy,
    applyBoundsAxis_soft_mem _ _ _ hz⟩

/-- Step parameters for the soft-bounds witness: boundary strength and
    rule weights at extreme values, wrap off. -/
def softWitnessParams : StepParams where
  dt := 1
  neighborRadius := 1
  separationRadius := 1
  weightSeparation := 1000000
  weightAlignment := 1000000
  weightCohesion := 1000000
  minSpeed := 1
  maxSpeed := 10
  maxAccel := 1000000
  centerAttraction := 1000
  boundaryMargin := 5
  boundaryStrength := 1000000
  wrapBounds := false
  mn := ⟨-10, -10, -10⟩
  mx := ⟨10, 10, 10⟩

/-- Claim C3 witness: extreme weights and boundary strength, a particle
    far outside the box, one neighbor accumulator. -/
theorem soft_bounds_containment_witness :
    (softWitnessParams.mn.x
        ≤ (boidsStep softWitnessParams ⟨500, 0, 0⟩ ⟨100, 0, 0⟩ ⟨7, 7, 7⟩ ⟨3, 3, 3⟩
            ⟨2, 2, 2⟩ 1 1).1.x
      ∧ (boidsStep softWitnessParams ⟨500, 0, 0⟩ ⟨100, 0, 0⟩ ⟨7, 7, 7⟩ ⟨3, 3, 3⟩
          ⟨2, 2, 2⟩ 1 1).1.x ≤ softWitnessParams.mx.x)
    ∧ (softWitnessParams.mn.y
        ≤ (boidsStep softWitnessParams ⟨500, 0, 0⟩ ⟨100, 0, 0⟩ ⟨7, 7, 7⟩ ⟨3, 3, 3⟩
            ⟨2, 2, 2⟩ 1 1).1.y
      ∧ (boidsStep softWitnessParams ⟨500, 0, 0⟩ ⟨100, 0, 0⟩ ⟨7, 7, 7⟩ ⟨3, 3, 3⟩
          ⟨2, 2, 2⟩ 1 1).1.y ≤ softWitnessParams.mx.y)
    ∧ (softWitnessParams.mn.z
        ≤ (boidsStep softWitnessParams ⟨500, 0, 0⟩ ⟨100, 0, 0⟩ ⟨7, 7, 7⟩ ⟨3, 3, 3⟩
            ⟨2, 2, 2⟩ 1 1).1.z
      ∧ (boidsStep softWitnessParams ⟨500, 0, 0⟩ ⟨100, 0, 0⟩ ⟨7, 7, 7⟩ ⟨3, 3, 3⟩
          ⟨2, 2, 2⟩ 1 1).1.z ≤ softWitnessParams.mx.z) :=
  soft_bounds_containment softWitnessParams ⟨500, 0, 0⟩ ⟨100, 0, 0⟩ ⟨7, 7, 7⟩
    ⟨3, 3, 3⟩ ⟨2, 2, 2⟩ 1 1 rfl
    (by norm_num [softWitnessParams]) (by norm_num [softWitnessParams])
    (by norm_num [softWitnessParams])

/-- Claim C4: after a tick the velocity length lies in
    [minSpeed, maxSpeed] whenever the post-integration speed is not
    negligible; a negligible post-integration speed instead yields the
    fixed fallback direction at the stored minimum speed. -/
theorem speed_clamp_spec (P : StepParams) (pos vel posSum velSum sepSum : Vec3)
    (cnt sepCnt : ℕ) (hm0 : 0 ≤ P.minSpeed) (hmm : P.minSpeed ≤ P.maxSpeed) :
    (speedEpsR ≤ vlen (velIntegrated P pos vel posSum velSum sepSum cnt sepCnt) →
      (P.minSpeed ≤ vlen (boidsStep P pos vel posSum velSum sepSum cnt sepCnt).2
        ∧ vlen (boidsStep P pos vel posSum velSum sepSum cnt sepCnt).2 ≤ P.maxSpeed))
    ∧ (vlen (velIntegrated P pos vel posSum velSum sepSum cnt sepCnt) < speedEpsR →
      ((boidsStep P pos vel posSum velSum sepSum cnt sepCnt).2
          = P.minSpeed • fallbackDir
        ∧ vlen (boidsStep P pos vel posSum velSum sepSum cnt sepCnt).2 = P.minSpeed)) := by
  have e : (boidsStep P pos vel posSum velSum sepSum cnt sepCnt).2
      = clampSpeed P (velIntegrated P pos vel posSum velSum sepSum cnt sepCnt) := rfl
  constructor
  · intro hge
    have hpos : 0 < vlen (velIntegrated P pos vel posSum velSum sepSum cnt sepCnt) :=
      lt_of_lt_of_le (by norm_num [speedEpsR]) hge
    rw [e]
    unfold clampSpeed
    rw [if_neg (not_lt.mpr hge), vlen_smul]
    have hk0 : 0 ≤ min P.maxSpeed
        (max P.minSpeed (vlen (velIntegrated P pos vel posSum velSum sepSum cnt sepCnt))) :=
      le_min (le_trans hm0 hmm) (le_trans hm0 (le_max_left _ _))
    rw [abs_of_nonneg (div_nonneg hk0 hpos.le), div_mul_cancel₀ _ (ne_of_gt hpos)]
    exact ⟨le_min hmm (le_max_left _ _), min_le_left _ _⟩
  · intro hlt
    rw [e]
    unfold clampSpeed
    rw [if_pos hlt]
    refine ⟨rfl, ?_⟩
    rw [vlen_smul]
    have h1 : vlen fallbackDir = 1 := by
      unfold fallbackDir vlen normSq
      norm_num
    rw [h1, mul_one, abs_of_nonneg hm0]

/-- Step parameters for the speed-clamp witness. -/
def speedWitnessParams : StepParams where
  dt := 0
  neighborRadius := 1
  separationRadius := 1
  weightSeparation := 1
  weightAlignment := 1
  weightCohesion := 1
  minSpeed := 1
  maxSpeed := 10
  maxAccel := 8
  centerAttraction := 0
  boundaryMargin := 1
  boundaryStrength := 1
  wrapBounds := false
  mn := ⟨-10, -10, -10⟩
  mx := ⟨10, 10, 10⟩

/-- Claim C4 witness. -/
theorem speed_clamp_spec_witness :
    (speedEpsR ≤ vlen (velIntegrated speedWitnessParams ⟨0, 0, 0⟩ ⟨20, 0, 0⟩ 0 0 0 0 0) →
      (speedWitnessParams.minSpeed
          ≤ vlen (boidsStep speedWitnessParams ⟨0, 0, 0⟩ ⟨20, 0, 0⟩ 0 0 0 0 0).2
        ∧ vlen (boidsStep speedWitnessParams ⟨0, 0, 0⟩ ⟨20, 0, 0⟩ 0 0 0 0 0).2
          ≤ speedWitnessParams.maxSpeed))
    ∧ (vlen (velIntegrated speedWitnessParams ⟨0, 0, 0⟩ ⟨20, 0, 0⟩ 0 0 0 0 0) < speedEpsR →
      ((boidsStep speedWitnessParams ⟨0, 0, 0⟩ ⟨20, 0, 0⟩ 0 0 0 0 0).2
          = speedWitnessParams.minSpeed • fallbackDir
        ∧ vlen (boidsStep speedWitnessParams ⟨0, 0, 0⟩ ⟨20, 0, 0⟩ 0 0 0 0 0).2
          = speedWitnessParams.minSpeed)) :=
  speed_clamp_spec speedWitnessParams ⟨0, 0, 0⟩ ⟨20, 0, 0⟩ 0 0 0 0 0
    (by norm_num [speedWitnessParams]) (by norm_num [speedWitnessParams])

/-- Claim C5: in wrap mode, a particle whose integrated position
    exceeds the upper bound of one axis by some positive excess ends
    the tick at the lower bound plus that excess on that axis, while
    each other axis is wrapped independently from its own integrated
    coordinate only. -/
theorem wrap_bounds_translation (P : StepParams) (pos vel posSum velSum sepSum : Vec3)
    (cnt sepCnt : ℕ) (exc : ℝ) (hwrap : P.wrapBounds = true)
    (hx : P.mn.x ≤ P.mx.x) (hexc : 0 < exc)
    (hpos : (posIntegrated P pos vel posSum velSum sepSum cnt sepCnt).x = P.mx.x + exc) :
    (boidsStep P pos vel posSum velSum sepSum cnt sepCnt).1.x = P.mn.x + exc
    ∧ (boidsStep P pos vel posSum velSum sepSum cnt sepCnt).1.y
      = applyBoundsAxis P.wrapBounds P.mn.y P.mx.y
        (posIntegrated P pos vel posSum velSum sepSum cnt sepCnt).y
    ∧ (boidsStep P pos vel posSum velSum sepSum cnt sepCnt).1.z
      = applyBoundsAxis P.wrapBounds P.mn.z P.mx.z
        (posIntegrated P pos vel posSum velSum sepSum cnt sepCnt).z := by
  refine ⟨?_, rfl, rfl⟩
  have ex : (boidsStep P pos vel posSum velSum sepSum cnt sepCnt).1.x
      = applyBoundsAxis P.wrapBounds P.mn.x P.mx.x
        (posIntegrated P pos vel posSum velSum sepSum cnt sepCnt).x := rfl
  rw [ex, hwrap, hpos]
  unfold applyBoundsAxis
  rw [if_pos rfl, if_neg (by linarith), if_pos (by linarith)]
  ring

/-- Step parameters for the wrap witness: wrap on, zero time step. -/
def wrapWitnessParams : StepParams where
  dt := 0
  neighborRadius := 1
  separationRadius := 1
  weightSeparation := 1
  weightAlignment := 1
  weightCohesion := 1
  minSpeed := 1
  maxSpeed := 10
  maxAccel := 8
  centerAttraction := 0
  boundaryMargin := 1
  boundaryStrength := 1
  wrapBounds := true
  mn := ⟨-10, -10, -10⟩
  mx := ⟨10, 10, 10⟩

/-- Claim C5 witness: integrated position (11, 0, 0), one unit past the
    upper x bound. -/
theorem wrap_bounds_translation_witness :
    (boidsStep wrapWitnessParams ⟨11, 0, 0⟩ ⟨2, 0, 0⟩ 0 0 0 0 0).1.x
      = wrapWitnessParams.mn.x + 1
    ∧ (boidsStep wrapWitnessParams ⟨11, 0, 0⟩ ⟨2, 0, 0⟩ 0 0 0 0 0).1.y
      = applyBoundsAxis wrapWitnessParams.wrapBounds wrapWitnessParams.mn.y
        wrapWitnessParams.mx.y
        (posIntegrated wrapWitnessParams ⟨11, 0, 0⟩ ⟨2, 0, 0⟩ 0 0 0 0 0).y
    ∧ (boidsStep wrapWitnessParams ⟨11, 0, 0⟩ ⟨2, 0, 0⟩ 0 0 0 0 0).1.z
      = applyBoundsAxis wrapWitnessParams.wrapBounds wrapWitnessParams.mn.z
        wrapWitnessParams.mx.z
        (posIntegrated wrapWitnessParams ⟨11, 0, 0⟩ ⟨2, 0, 0⟩ 0 0 0 0 0).z :=
  wrap_bounds_translation wrapWitnessParams ⟨11, 0, 0⟩ ⟨2, 0, 0⟩ 0 0 0 0 0 1
    rfl (by norm_num [wrapWitnessParams]) (by norm_num)
    (by simp [posIntegrated, wrapWitnessParams]; norm_num)

end

end JuicyFlock
